import Mathlib

/-!
# Verification of the ELLOWREG-IN registration/synchronization handlers

Shallow embedding of the serverless handlers of this repository:

* the "upsert" Reconciler (`sync-with-google-sheets` variant stored inside
  `netlify/functions/list-registrations.js`, second document) which drains the
  `needs_sync` dirty set of the `registrations` table into a Google-Sheet mirror;
* `retryWithBackoff` from `netlify/functions/utils.js`;
* the deletion-planning part of `netlify/functions/sync-with-google-sheets.js`;
* the duplicate-phone paths of `netlify/functions/submit-registration.js`
  (Postgres variant) and `netlify/functions/submit-registration/submit-registration.js`
  (Firestore variant);
* the `unmark-checked-in.js` admin handler.

The registrations table is a `List DbRecord`; a JS `Map` is an association list
with `Map.set` overwrite semantics; the Google-Sheets API surface is a trace of
`MirrorCall`s whose transient success/failure (after the retry wrapper has run
its course) is given by an oracle `fails : Nat → Bool` indexed by call position.
-/

set_option maxRecDepth 4000

/-- A row of the `registrations` Postgres table, with the columns used by the
handlers (`SELECT *` result).  `timestamp` and `checked_in_at` are modelled as
natural numbers, `payment_id`/`checked_in_at` are nullable. -/
structure DbRecord where
  registration_id : String
  name : String
  company : String
  phone : String
  address : String
  city : String
  state : String
  day : String
  payment_id : Option String
  timestamp : Nat
  image_url : String
  checked_in_at : Option Nat
  needs_sync : Bool
deriving Repr, DecidableEq

/-- Stable insertion of a record into a list sorted by ascending `timestamp`
(model of the SQL `ORDER BY timestamp ASC`). -/
def insertByTs (r : DbRecord) : List DbRecord → List DbRecord
  | [] => [r]
  | x :: xs => if r.timestamp ≤ x.timestamp then r :: x :: xs else x :: insertByTs r xs

/-- Stable sort by ascending `timestamp`. -/
def sortByTs (l : List DbRecord) : List DbRecord := l.foldr insertByTs []

/-- `SELECT * FROM registrations WHERE needs_sync = true ORDER BY timestamp ASC`
(step 1 of the upsert sync handler). -/
def listDirty (db : List DbRecord) : List DbRecord :=
  sortByTs (db.filter (fun r => r.needs_sync))

/-- One row of cell values of the sheet, as returned by `values.get` /
sent to `values.append`. -/
abbrev SheetRow := List String

/-- JS `Map.set` on an association list: overwrite the value of an existing key
in place, otherwise append the new binding at the end (preserving the `Map`'s
insertion-order iteration). -/
def jsMapSet {κ ν : Type} [BEq κ] (m : List (κ × ν)) (k : κ) (v : ν) :
    List (κ × ν) :=
  if (m.lookup k).isSome then m.map (fun p => if p.1 == k then (k, v) else p)
  else m ++ [(k, v)]

/-- Step 2 of the upsert sync handler: build `registration_id ↦ rowNumber`
from the bulk read of column `A` (`sheetValues.forEach((row, index) => ...)`,
skipping falsy `row[0]`, `rowNumber = index + 1`). -/
def buildSheetMap (sheetValues : List SheetRow) : List (String × Nat) :=
  (sheetValues.enum).foldl
    (fun m p =>
      match p.2.head? with
      | some regId => if regId = "" then m else jsMapSet m regId (p.1 + 1)
      | none => m)
    []

/-- Stand-in for `new Date(t).toLocaleString("en-IN", ...)`: an abstract
injective rendering of the timestamp (the locale formatting itself is a
third-party library boundary). -/
def localeString (t : Nat) : String := toString t

/-- The `newRowData` array built by the upsert sync handler for one record. -/
def formatRow (r : DbRecord) : SheetRow :=
  [r.registration_id, r.name, r.company, r.phone,
   r.address, r.city, r.state, r.day,
   r.payment_id.getD "N/A",
   localeString r.timestamp,
   r.image_url,
   match r.checked_in_at with
   | some t => localeString t
   | none => "N/A"]

/-- One element of the `updateRequests` batch:
`{ range: SHEET_NAME!A<rowNumber>, values: [newRowData] }`. -/
structure UpdateReq where
  range : String
  values : List SheetRow
deriving Repr, DecidableEq

/-- The update request built for a record found at `rowNumber` in the sheet map. -/
def mkUpdateReq (rowNumber : Nat) (r : DbRecord) : UpdateReq :=
  { range := "Registrations!A" ++ toString rowNumber, values := [formatRow r] }

/-- Step 3 of the upsert sync handler: classify each dirty record as an in-place
update (its `registration_id` is a key of the sheet map) or an append
(otherwise), preserving iteration order. -/
def classify (sheetMap : List (String × Nat)) :
    List DbRecord → List UpdateReq × List SheetRow
  | [] => ([], [])
  | r :: rest =>
    let res := classify sheetMap rest
    match sheetMap.lookup r.registration_id with
    | some rowNumber => (mkUpdateReq rowNumber r :: res.1, res.2)
    | none => (res.1, formatRow r :: res.2)

/-- `API_CHUNK_SIZE = 500`. -/
def API_CHUNK_SIZE : Nat := 500

/-- The chunking loop `for (let i = 0; i < xs.length; i += n) xs.slice(i, i + n)`:
the `⌈length / n⌉` iterations, each slicing `n` elements from offset `i * n`. -/
def chunksOf {α : Type} (n : Nat) (l : List α) : List (List α) :=
  (List.range ((l.length + n - 1) / n)).map (fun i => (l.drop (i * n)).take n)

/-- One Google-Sheets API call made by the upsert sync handler. -/
inductive MirrorCall where
  | readIds : MirrorCall
  | updateChunk : List UpdateReq → MirrorCall
  | appendChunk : List SheetRow → MirrorCall
deriving Repr, DecidableEq

/-- Step 4's call plan: all update chunks, then all append chunks. -/
def writePlan (updateRequests : List UpdateReq) (recordsToAppend : List SheetRow) :
    List MirrorCall :=
  (chunksOf API_CHUNK_SIZE updateRequests).map MirrorCall.updateChunk
    ++ (chunksOf API_CHUNK_SIZE recordsToAppend).map MirrorCall.appendChunk

/-- Execute the planned calls in order against the failure oracle: call number
`k` raises (after its retry budget) when `fails k = true`.  Returns the calls
attempted (including a raising one) and whether the whole phase completed. -/
def runCalls (fails : Nat → Bool) : Nat → List MirrorCall → List MirrorCall × Bool
  | _, [] => ([], true)
  | k, c :: cs =>
    if fails k then ([c], false)
    else
      let res := runCalls fails (k + 1) cs
      (c :: res.1, res.2)

/-- Step 5: `UPDATE registrations SET needs_sync = false
WHERE registration_id = ANY($1::text[])`. -/
def clearDirty (db : List DbRecord) (ids : List String) : List DbRecord :=
  db.map (fun r =>
    if ids.contains r.registration_id then { r with needs_sync := false } else r)

/-- Observable outcome of one run of the upsert sync handler: the HTTP status,
the `updated`/`appended` counts of the response body, the Google-Sheets calls
attempted, and the `registrations` table afterwards. -/
structure SyncOutcome where
  statusCode : Nat
  updated : Nat
  appended : Nat
  mirrorCalls : List MirrorCall
  db : List DbRecord
deriving Repr, DecidableEq

/-- The write-phase call plan of one run of the upsert sync handler (its
`updateRequests` chunks followed by its `recordsToAppend` chunks), as a
function of the run's inputs. -/
def syncPlan (db : List DbRecord) (sv : List SheetRow) : List MirrorCall :=
  writePlan (classify (buildSheetMap sv) (listDirty db)).1
    (classify (buildSheetMap sv) (listDirty db)).2

/-- The upsert sync handler (the `sync-with-google-sheets` variant stored in
`list-registrations.js`): fetch the dirty set (short-circuiting when empty),
bulk-read column `A` (call `0` of the oracle), classify, run update chunks then
append chunks (calls `1, 2, ...`), and clear the dirty flags of all fetched ids
only when every call completed; any raising call aborts with a 500 response and
leaves the table untouched. -/
def syncUpsertHandler (db : List DbRecord) (sheetValues : List SheetRow)
    (fails : Nat → Bool) : SyncOutcome :=
  if (listDirty db).length = 0 then
    { statusCode := 200, updated := 0, appended := 0, mirrorCalls := [], db := db }
  else if fails 0 then
    { statusCode := 500, updated := 0, appended := 0,
      mirrorCalls := [MirrorCall.readIds], db := db }
  else if (runCalls fails 1 (syncPlan db sheetValues)).2 then
    { statusCode := 200,
      updated := (classify (buildSheetMap sheetValues) (listDirty db)).1.length,
      appended := (classify (buildSheetMap sheetValues) (listDirty db)).2.length,
      mirrorCalls := MirrorCall.readIds :: (runCalls fails 1 (syncPlan db sheetValues)).1,
      db := clearDirty db ((listDirty db).map (fun r => r.registration_id)) }
  else
    { statusCode := 500, updated := 0, appended := 0,
      mirrorCalls := MirrorCall.readIds :: (runCalls fails 1 (syncPlan db sheetValues)).1,
      db := db }

/-- Result of `retryWithBackoff` as observed by its caller: the value of a
successful attempt, the error rethrown from the last attempt, or the JS
`undefined` a zero-trip loop falls through to. -/
inductive RetryResult (ε α : Type) where
  | ok : α → RetryResult ε α
  | err : ε → RetryResult ε α
  | undef : RetryResult ε α
deriving Repr, DecidableEq

/-- The loop body of `retryWithBackoff` (`utils.js`): `for (let i = 0; i < retries;
i++) { try { return await fn() } catch (err) { if (i === retries - 1) throw err;
await sleep(delay * 2 ** i) } }`.  `outcomes i` is what the `i`-th invocation of
`fn` does; the result carries the observed outcome, the list of back-off sleeps
performed, and how many times `fn` was invoked. -/
def retryLoop {ε α : Type} (outcomes : Nat → Except ε α) (retries : Int)
    (delay : Nat) (i : Nat) : RetryResult ε α × List Nat × Nat :=
  if _h : (i : Int) < retries then
    match outcomes i with
    | Except.ok a => (RetryResult.ok a, [], i + 1)
    | Except.error e =>
      if (i : Int) = retries - 1 then (RetryResult.err e, [], i + 1)
      else
        let res := retryLoop outcomes retries delay (i + 1)
        (res.1, delay * 2 ^ i :: res.2.1, res.2.2)
  else (RetryResult.undef, [], i)
termination_by (retries - (i : Int)).toNat
decreasing_by simp; omega

/-- `retryWithBackoff(fn, retries, delay)` from `utils.js` (both copies are
textually identical). -/
def retryWithBackoff {ε α : Type} (outcomes : Nat → Except ε α) (retries : Int)
    (delay : Nat) : RetryResult ε α × List Nat × Nat :=
  retryLoop outcomes retries delay 0

/-- A value of the `sheetMap` of `sync-with-google-sheets.js`:
`{ regId: row[REG_ID_COLUMN_INDEX], rowIndex: index + 2, isProcessed: false }`
(the mutable `isProcessed` mark is modelled functionally in `rowsToDelete`). -/
structure SheetEntry where
  regId : Option String
  rowIndex : Nat
deriving Repr, DecidableEq

/-- The `sheetMap` of `sync-with-google-sheets.js`: keyed by the phone column
(`row[3]`, `undefined` when the row is short), value holding the id cell and the
1-based-plus-header row position `index + 2`. -/
def buildDelMap : Nat → List SheetRow → List (Option String × SheetEntry) →
    List (Option String × SheetEntry)
  | _, [], m => m
  | idx, row :: rest, m =>
    buildDelMap (idx + 1) rest
      (jsMapSet m (row.get? 3) { regId := row.get? 0, rowIndex := idx + 2 })

/-- The unsorted deletion candidates of `sync-with-google-sheets.js`: the sheet
map entries (in `Map` iteration order) whose phone key matches no database
record, after `shift()`-ing the header row off the fetched values. -/
def delCandidates (dbRows : List DbRecord) (values : List SheetRow) :
    List SheetEntry :=
  let sheetRows := values.tail
  let m := buildDelMap 0 sheetRows []
  (m.filter (fun p => !((dbRows.map (fun r => some r.phone)).contains p.1))).map
    (fun p => p.2)

/-- The order of the deletion sort `rowsToDelete.sort((a, b) => b.rowIndex -
a.rowIndex)`: `a` comes no later than `b` when `b.rowIndex ≤ a.rowIndex`. -/
def delRel (a b : SheetEntry) : Prop := b.rowIndex ≤ a.rowIndex

instance : DecidableRel delRel := fun a b => Nat.decLe b.rowIndex a.rowIndex

instance : IsTotal SheetEntry delRel := ⟨fun a b => Nat.le_total b.rowIndex a.rowIndex⟩

instance : IsTrans SheetEntry delRel := ⟨fun _ _ _ hab hbc => Nat.le_trans hbc hab⟩

/-- The `rowsToDelete` array of `sync-with-google-sheets.js` after its
descending stable sort by row position. -/
def rowsToDelete (dbRows : List DbRecord) (values : List SheetRow) :
    List SheetEntry :=
  List.insertionSort delRel (delCandidates dbRows values)

/-- Minimal JSON value model for response bodies. -/
inductive JsonVal where
  | str : String → JsonVal
  | null : JsonVal
  | obj : List (String × JsonVal) → JsonVal

/-- Top-level field lookup in a JSON object body. -/
def jsonField : JsonVal → String → Option JsonVal
  | JsonVal.obj fields, k => fields.lookup k
  | _, _ => none

/-- An HTTP handler response: status code and JSON body. -/
structure Response where
  statusCode : Nat
  body : JsonVal

/-- The parsed multipart fields and upload outcome consumed by the Postgres
`submit-registration.js` handler (files/payment verification are external
boundaries; `secureUrl` is the Cloudinary upload result). -/
structure Submission where
  name : String
  phone : String
  firmName : String
  address : String
  district : String
  state : String
  attendance : String
  razorpay_order_id : String
  razorpay_payment_id : String
  razorpay_signature : String
  hasProfileImage : Bool
  secureUrl : String

/-- Structural model of JS `String.prototype.jsTrim` (and of `String.jsTrim`):
drop leading and trailing whitespace.  (The library `String.jsTrim` is defined by
well-founded recursion on byte positions and is therefore not usable in an
executable embedding.) -/
def String.jsTrim (s : String) : String :=
  String.mk
    (((s.data.dropWhile Char.isWhitespace).reverse.dropWhile
      Char.isWhitespace).reverse)

/-- The `requiredFields` object of `submit-registration.js`, in property order. -/
def requiredFieldsPg (sub : Submission) : List (String × String) :=
  [("name", sub.name), ("phone", sub.phone), ("firmName", sub.firmName),
   ("address", sub.address), ("district", sub.district), ("state", sub.state),
   ("attendance", sub.attendance)]

/-- Modelled from the spec: the `registrations` table DDL is not among the
repository's source files, and the INSERT of `submit-registration.js` lists no
`needs_sync` column, so the stored value is the schema's column default.  The
spec's data model says the dirty flag is "set to true on create", so the
default is modelled as `true`. -/
def needsSyncDefault : Bool := true

/-- The Postgres `submit-registration.js` handler (POST path): Razorpay
signature check, required-field validation, profile-photo check, Cloudinary
upload (its `secure_url` is an input), INSERT with the unique-violation catch
(`23505` on `registrations_phone_key` ⇒ 409), else the success response.
`hmac` abstracts the SHA-256 HMAC, `ts`/`registrationId` the generated
timestamp and id. -/
def submitRegistrationPg (hmac : String → String) (db : List DbRecord)
    (sub : Submission) (ts : Nat) (registrationId : String) :
    Response × List DbRecord :=
  if hmac (sub.razorpay_order_id ++ "|" ++ sub.razorpay_payment_id) ≠
      sub.razorpay_signature then
    ({ statusCode := 400,
       body := JsonVal.obj [("error", JsonVal.str "Transaction not legit!")] }, db)
  else
    match (requiredFieldsPg sub).find? (fun p => p.2.jsTrim = "") with
    | some p =>
      ({ statusCode := 400,
         body := JsonVal.obj [("status", JsonVal.str "error"),
           ("error", JsonVal.str ("Missing required field: " ++ p.1))] }, db)
    | none =>
      if sub.hasProfileImage = false then
        ({ statusCode := 400,
           body := JsonVal.obj [("status", JsonVal.str "error"),
             ("error", JsonVal.str "A profile photo is required.")] }, db)
      else if db.any (fun r => r.phone = sub.phone.jsTrim) then
        ({ statusCode := 409,
           body := JsonVal.obj
             [("error", JsonVal.str "This phone number is already registered.")] },
         db)
      else
        let newRecord : DbRecord :=
          { registration_id := registrationId, name := sub.name.jsTrim,
            company := sub.firmName.jsTrim, phone := sub.phone.jsTrim,
            address := sub.address.jsTrim, city := sub.district.jsTrim,
            state := sub.state.jsTrim, day := sub.attendance,
            payment_id := some sub.razorpay_payment_id, timestamp := ts,
            image_url := sub.secureUrl, checked_in_at := none,
            needs_sync := needsSyncDefault }
        ({ statusCode := 200,
           body := JsonVal.obj [("status", JsonVal.str "success"),
             ("registrationData", JsonVal.obj
               [("registrationId", JsonVal.str newRecord.registration_id),
                ("name", JsonVal.str newRecord.name),
                ("phone", JsonVal.str newRecord.phone),
                ("firmName", JsonVal.str newRecord.company),
                ("attendance", JsonVal.str newRecord.day),
                ("profileImageUrl", JsonVal.str newRecord.image_url)])] },
         db ++ [newRecord])

/-- A document of the Firestore `registrations` collection. -/
structure FsDoc where
  registrationId : String
  name : String
  phone : String
  firmName : String
  address : String
  district : String
  state : String
  attendance : String
  paymentScreenshotUrl : String
  profileImageUrl : String
  createdAt : Nat
deriving Repr, DecidableEq

/-- JSON serialization of a Firestore registration document. -/
def fsDocJson (d : FsDoc) : JsonVal :=
  JsonVal.obj
    [("registrationId", JsonVal.str d.registrationId),
     ("name", JsonVal.str d.name), ("phone", JsonVal.str d.phone),
     ("firmName", JsonVal.str d.firmName), ("address", JsonVal.str d.address),
     ("district", JsonVal.str d.district), ("state", JsonVal.str d.state),
     ("attendance", JsonVal.str d.attendance),
     ("paymentScreenshotUrl", JsonVal.str d.paymentScreenshotUrl),
     ("profileImageUrl", JsonVal.str d.profileImageUrl),
     ("createdAt", JsonVal.str (localeString d.createdAt))]

/-- Parsed input of the Firestore `submit-registration/submit-registration.js`
handler (`profileUrl`/`paymentUrl` are the Cloudinary upload results). -/
structure FsSubmission where
  name : String
  phone : String
  firmName : String
  address : String
  district : String
  state : String
  attendance : String
  hasProfileImage : Bool
  hasPaymentScreenshot : Bool
  profileUrl : String
  paymentUrl : String

/-- `String(n).padStart(4, '0')`. -/
def padStart4 (n : Nat) : String :=
  let s := toString n
  String.mk (List.replicate (4 - s.length) '0') ++ s

/-- The Firestore `submit-registration/submit-registration.js` handler (POST
path): required-field validation, duplicate-phone query (`where('phone','==',
phone).limit(1)`) returning 409 with the full existing document under
`details`, else counter-transaction id generation and `doc(phone).set`.
`counter` is the stored counter value, `now` the server timestamp. -/
def submitRegistrationFs (db : List FsDoc) (sub : FsSubmission) (counter : Nat)
    (now : Nat) : Response × List FsDoc :=
  if sub.name = "" ∨ sub.phone = "" ∨ sub.firmName = "" ∨
      sub.hasProfileImage = false ∨ sub.hasPaymentScreenshot = false then
    ({ statusCode := 400,
       body := JsonVal.obj [("error", JsonVal.str "Missing required fields.")] }, db)
  else
    match db.find? (fun d => d.phone = sub.phone) with
    | some existingDoc =>
      ({ statusCode := 409,
         body := JsonVal.obj
           [("error", JsonVal.str "This mobile number has already been registered."),
            ("details", fsDocJson existingDoc)] }, db)
    | none =>
      let newDoc : FsDoc :=
        { registrationId := "TDEXPOUP-" ++ padStart4 (counter + 1),
          name := sub.name, phone := sub.phone, firmName := sub.firmName,
          address := sub.address, district := sub.district, state := sub.state,
          attendance := sub.attendance, paymentScreenshotUrl := sub.paymentUrl,
          profileImageUrl := sub.profileUrl, createdAt := now }
      ({ statusCode := 200, body := fsDocJson newDoc }, db ++ [newDoc])

/-- JSON serialization of a `registrations` row (the `data` field of the
`unmark-checked-in.js` success response). -/
def dbRecordJson (r : DbRecord) : JsonVal :=
  JsonVal.obj
    [("registration_id", JsonVal.str r.registration_id),
     ("name", JsonVal.str r.name), ("company", JsonVal.str r.company),
     ("phone", JsonVal.str r.phone), ("address", JsonVal.str r.address),
     ("city", JsonVal.str r.city), ("state", JsonVal.str r.state),
     ("day", JsonVal.str r.day),
     ("payment_id", match r.payment_id with
       | some p => JsonVal.str p
       | none => JsonVal.null),
     ("timestamp", JsonVal.str (localeString r.timestamp)),
     ("image_url", JsonVal.str r.image_url),
     ("checked_in_at", match r.checked_in_at with
       | some t => JsonVal.str (localeString t)
       | none => JsonVal.null),
     ("needs_sync", JsonVal.str (toString r.needs_sync))]

/-- The UPDATE statement of `unmark-checked-in.js`: `SET checked_in_at = NULL,
needs_sync = true WHERE registration_id = $1` over the whole table. -/
def undoUpdate (registrationId : String) (db : List DbRecord) : List DbRecord :=
  db.map (fun r =>
    if r.registration_id = registrationId then
      { r with checked_in_at := none, needs_sync := true }
    else r)

/-- The `unmark-checked-in.js` handler (POST path): admin-key check, password
re-verification, id validation, then `UPDATE registrations SET checked_in_at =
NULL, needs_sync = true WHERE registration_id = $1 RETURNING *` (404 when no
row matched). -/
def unmarkCheckedIn (secretKey : String) (providedKey : Option String)
    (password : String) (registrationId : String) (db : List DbRecord) :
    Response × List DbRecord :=
  if providedKey ≠ some secretKey ∨ providedKey = some "" then
    ({ statusCode := 401,
       body := JsonVal.obj [("error", JsonVal.str "Unauthorized")] }, db)
  else if password ≠ secretKey then
    ({ statusCode := 403,
       body := JsonVal.obj
         [("error", JsonVal.str "Incorrect password. Cannot undo check-in.")] }, db)
  else if registrationId = "" then
    ({ statusCode := 400,
       body := JsonVal.obj [("error", JsonVal.str "Registration ID is required.")] }, db)
  else
    match ((undoUpdate registrationId db).filter
        (fun r => r.registration_id = registrationId)).head? with
    | none =>
      ({ statusCode := 404,
         body := JsonVal.obj [("error", JsonVal.str "User not found.")] },
       undoUpdate registrationId db)
    | some r0 =>
      ({ statusCode := 200,
         body := JsonVal.obj
           [("message", JsonVal.str
              ("Successfully unmarked " ++ r0.name ++ " as checked-in.")),
            ("data", dbRecordJson r0)] }, undoUpdate registrationId db)

/-! ## Concrete inputs used by the witnesses and counterexamples -/

/-- A sample registration row. -/
def demoRec (id ph : String) (sync : Bool) : DbRecord :=
  { registration_id := id, name := "Asha", company := "Acme", phone := ph,
    address := "12 MG Road", city := "Lucknow", state := "UP", day := "Day 1",
    payment_id := some "pay_1", timestamp := 0, image_url := "https://img/1.jpg",
    checked_in_at := none, needs_sync := sync }

/-- A table with a single dirty record. -/
def demoDirtyDb : List DbRecord := [demoRec "R1" "9000000001" true]

/-- A table of 1001 dirty records with pairwise distinct ids. -/
def db1001 : List DbRecord :=
  (List.range 1001).map (fun i => demoRec ("R" ++ toString i) ("9" ++ toString i) true)

/-- A failure oracle under which every call succeeds. -/
def noFail : Nat → Bool := fun _ => false

/-- A failure oracle under which every call raises. -/
def allFail : Nat → Bool := fun _ => true

/-- A stand-in HMAC under which `cexSubmission`'s signature verifies. -/
def cexHmac : String → String := fun _ => "sig"

/-- A submission re-using the phone number of `demoDirtyDb`'s record. -/
def cexSubmission : Submission :=
  { name := "Ravi", phone := "9000000001", firmName := "Acme",
    address := "12 MG Road", district := "Lucknow", state := "UP",
    attendance := "Day 1", razorpay_order_id := "order_1",
    razorpay_payment_id := "pay_1", razorpay_signature := "sig",
    hasProfileImage := true, secureUrl := "https://img/2.jpg" }

/-- An existing Firestore registration document. -/
def fsDemoDoc : FsDoc :=
  { registrationId := "TDEXPOUP-0001", name := "Asha", phone := "9000000001",
    firmName := "Acme", address := "12 MG Road", district := "Lucknow",
    state := "UP", attendance := "Day 1",
    paymentScreenshotUrl := "https://img/pay.jpg",
    profileImageUrl := "https://img/1.jpg", createdAt := 0 }

/-- A Firestore submission re-using `fsDemoDoc`'s phone number. -/
def fsDemoSub : FsSubmission :=
  { name := "Ravi", phone := "9000000001", firmName := "Acme",
    address := "12 MG Road", district := "Lucknow", state := "UP",
    attendance := "Day 1", hasProfileImage := true,
    hasPaymentScreenshot := true, profileUrl := "https://img/2.jpg",
    paymentUrl := "https://img/pay2.jpg" }

/-- Fetched sheet values with a header row and two data rows whose phones match
no database record. -/
def demoSheetValues : List SheetRow :=
  [["registration_id"], ["R1", "", "", "9000000001"], ["R2", "", "", "9000000002"]]

/-- An attempt oracle under which every invocation of the wrapped function
raises the same error. -/
def alwaysBoom : Nat → Except String Unit := fun _ => Except.error "boom"

/-- An attempt oracle whose first two invocations raise and whose third
succeeds. -/
def okOnThird : Nat → Except String Unit := fun i =>
  if i < 2 then Except.error ("boom " ++ toString i) else Except.ok ()

/-! ## Helper lemmas about the reconciler model -/

theorem mem_insertByTs {a r : DbRecord} {l : List DbRecord} :
    a ∈ insertByTs r l ↔ a = r ∨ a ∈ l := by
  induction l with
  | nil => simp [insertByTs]
  | cons x xs ih =>
    by_cases h : r.timestamp ≤ x.timestamp
    · simp [insertByTs, h]
    · simp [insertByTs, h, ih]
      tauto

theorem mem_sortByTs {a : DbRecord} {l : List DbRecord} :
    a ∈ sortByTs l ↔ a ∈ l := by
  induction l with
  | nil => simp [sortByTs]
  | cons x xs ih => simp [sortByTs, mem_insertByTs] at *; tauto

theorem length_insertByTs (r : DbRecord) (l : List DbRecord) :
    (insertByTs r l).length = l.length + 1 := by
  induction l with
  | nil => simp [insertByTs]
  | cons x xs ih =>
    by_cases h : r.timestamp ≤ x.timestamp <;> simp [insertByTs, h, ih]

theorem length_sortByTs (l : List DbRecord) :
    (sortByTs l).length = l.length := by
  induction l with
  | nil => rfl
  | cons x xs ih => simp [sortByTs, length_insertByTs] at *; omega

theorem mem_listDirty {r : DbRecord} {db : List DbRecord} :
    r ∈ listDirty db ↔ r ∈ db ∧ r.needs_sync = true := by
  simp [listDirty, mem_sortByTs, List.mem_filter]

theorem runCalls_ok_iff (fails : Nat → Bool) (start : Nat) (l : List MirrorCall) :
    (runCalls fails start l).2 = true ↔
      ∀ i, i < l.length → fails (start + i) = false := by
  induction l generalizing start with
  | nil => simp [runCalls]
  | cons c cs ih =>
    cases hf : fails start with
    | true =>
      simp only [runCalls, hf, if_true]
      constructor
      · intro hfalse; cases hfalse
      · intro hall
        have h0 := hall 0 (by simp)
        rw [Nat.add_zero, hf] at h0
        cases h0
    | false =>
      have hrw : runCalls fails start (c :: cs) =
          (c :: (runCalls fails (start + 1) cs).1, (runCalls fails (start + 1) cs).2) := by
        simp [runCalls, hf]
      rw [hrw]
      show (runCalls fails (start + 1) cs).2 = true ↔ _
      rw [ih (start + 1)]
      constructor
      · intro hall i hi
        cases i with
        | zero => simpa using hf
        | succ j =>
          have hj := hall j (by simp at hi ⊢; omega)
          have heq : start + 1 + j = start + (j + 1) := by omega
          rwa [heq] at hj
      · intro hall i hi
        have hj := hall (i + 1) (by simp at hi ⊢; omega)
        have heq : start + (i + 1) = start + 1 + i := by omega
        rwa [heq] at hj

theorem runCalls_done_of_ok (fails : Nat → Bool) (start : Nat) (l : List MirrorCall)
    (h : (runCalls fails start l).2 = true) : (runCalls fails start l).1 = l := by
  induction l generalizing start with
  | nil => rfl
  | cons c cs ih =>
    cases hf : fails start with
    | true => rw [runCalls] at h; simp [hf] at h
    | false =>
      have hrw : runCalls fails start (c :: cs) =
          (c :: (runCalls fails (start + 1) cs).1, (runCalls fails (start + 1) cs).2) := by
        simp [runCalls, hf]
      rw [hrw] at h ⊢
      show c :: (runCalls fails (start + 1) cs).1 = c :: cs
      rw [ih (start + 1) h]

theorem listDirty_clearDirty (db : List DbRecord) (ids : List String)
    (h : ∀ r ∈ db, r.needs_sync = true → r.registration_id ∈ ids) :
    listDirty (clearDirty db ids) = [] := by
  have hfilter : (clearDirty db ids).filter (fun r => r.needs_sync) = [] := by
    rw [List.filter_eq_nil_iff]
    intro a ha
    simp only [clearDirty, List.mem_map] at ha
    obtain ⟨r, hr, hmap⟩ := ha
    cases hc : ids.contains r.registration_id with
    | true =>
      rw [hc] at hmap
      simp at hmap
      simp [← hmap]
    | false =>
      rw [hc] at hmap
      simp at hmap
      subst hmap
      intro hsync
      have hmem := h r hr (by simpa using hsync)
      have hco : ids.contains r.registration_id = true := by simpa using hmem
      rw [hco] at hc
      cases hc
  simp [listDirty, hfilter, sortByTs]

theorem classify_fst (m : List (String × Nat)) (ds : List DbRecord) :
    (classify m ds).1 =
      (ds.filter (fun r => (m.lookup r.registration_id).isSome)).map
        (fun r => mkUpdateReq ((m.lookup r.registration_id).getD 0) r) := by
  induction ds with
  | nil => rfl
  | cons r rest ih =>
    cases hl : m.lookup r.registration_id with
    | some n => simp [classify, hl, ih, List.filter_cons]
    | none => simp [classify, hl, ih, List.filter_cons]

theorem classify_snd (m : List (String × Nat)) (ds : List DbRecord) :
    (classify m ds).2 =
      (ds.filter (fun r => (m.lookup r.registration_id).isNone)).map formatRow := by
  induction ds with
  | nil => rfl
  | cons r rest ih =>
    cases hl : m.lookup r.registration_id with
    | some n => simp [classify, hl, ih, List.filter_cons]
    | none => simp [classify, hl, ih, List.filter_cons]

theorem chunksOf_cons_eq {α : Type} (l : List α) (h : l ≠ []) :
    chunksOf 500 l = l.take 500 :: chunksOf 500 (l.drop 500) := by
  have hlen : 1 ≤ l.length := List.length_pos.mpr h
  have hcount : (l.length + 500 - 1) / 500 =
      ((l.drop 500).length + 500 - 1) / 500 + 1 := by
    rw [List.length_drop]
    omega
  rw [chunksOf, chunksOf, hcount, List.range_succ_eq_map]
  rw [List.map_cons, List.map_map]
  have hhead : (l.drop (0 * 500)).take 500 = l.take 500 := by simp
  have htail : List.map ((fun i => (l.drop (i * 500)).take 500) ∘ Nat.succ)
        (List.range (((l.drop 500).length + 500 - 1) / 500)) =
      List.map (fun i => ((l.drop 500).drop (i * 500)).take 500)
        (List.range (((l.drop 500).length + 500 - 1) / 500)) := by
    refine List.map_congr_left ?_
    intro i _
    simp only [Function.comp_apply, List.drop_drop, Nat.succ_mul, Nat.add_comm]
  rw [hhead, htail]

theorem syncUpsertHandler_of_empty (db : List DbRecord) (sv : List SheetRow)
    (fails : Nat → Bool) (h : listDirty db = []) :
    syncUpsertHandler db sv fails =
      { statusCode := 200, updated := 0, appended := 0, mirrorCalls := [],
        db := db } := by
  simp [syncUpsertHandler, h]

theorem syncUpsertHandler_of_ok (db : List DbRecord) (sv : List SheetRow)
    (fails : Nat → Bool) (hne : (listDirty db).length ≠ 0) (h0 : fails 0 = false)
    (hok : (runCalls fails 1 (syncPlan db sv)).2 = true) :
    syncUpsertHandler db sv fails =
      { statusCode := 200,
        updated := (classify (buildSheetMap sv) (listDirty db)).1.length,
        appended := (classify (buildSheetMap sv) (listDirty db)).2.length,
        mirrorCalls := MirrorCall.readIds :: syncPlan db sv,
        db := clearDirty db ((listDirty db).map (fun r => r.registration_id)) } := by
  have hdone := runCalls_done_of_ok fails 1 (syncPlan db sv) hok
  rw [syncUpsertHandler, if_neg hne, h0]
  simp [hok, hdone]

theorem syncUpsertHandler_of_read_fail (db : List DbRecord) (sv : List SheetRow)
    (fails : Nat → Bool) (hne : (listDirty db).length ≠ 0) (h0 : fails 0 = true) :
    syncUpsertHandler db sv fails =
      { statusCode := 500, updated := 0, appended := 0,
        mirrorCalls := [MirrorCall.readIds], db := db } := by
  rw [syncUpsertHandler, if_neg hne, h0]
  simp

theorem syncUpsertHandler_of_chunk_fail (db : List DbRecord) (sv : List SheetRow)
    (fails : Nat → Bool) (hne : (listDirty db).length ≠ 0) (h0 : fails 0 = false)
    (hbad : (runCalls fails 1 (syncPlan db sv)).2 = false) :
    syncUpsertHandler db sv fails =
      { statusCode := 500, updated := 0, appended := 0,
        mirrorCalls := MirrorCall.readIds :: (runCalls fails 1 (syncPlan db sv)).1,
        db := db } := by
  rw [syncUpsertHandler, if_neg hne, h0]
  simp [hbad]

/-! ## Claim theorems: the upsert Reconciler -/

/-- **C6.** For every Reconciler run in which `listDirty` returns an empty set,
the run terminates successfully (status 200) with zero writes and performs no
Mirror Store operation at all — no read of the sheet index, no append, no
update — leaving the Mirror Store untouched. -/
theorem sync_empty_dirty_is_noop (db : List DbRecord) (sv : List SheetRow)
    (fails : Nat → Bool) (h : listDirty db = []) :
    syncUpsertHandler db sv fails =
      { statusCode := 200, updated := 0, appended := 0, mirrorCalls := [],
        db := db } :=
  syncUpsertHandler_of_empty db sv fails h

/-- Witness for `sync_empty_dirty_is_noop` on a table whose single record is
not dirty, under an oracle where every mirror call would raise. -/
theorem sync_empty_dirty_is_noop_witness :
    listDirty [demoRec "R1" "9000000001" false] = [] ∧
      syncUpsertHandler [demoRec "R1" "9000000001" false] demoSheetValues allFail =
        { statusCode := 200, updated := 0, appended := 0, mirrorCalls := [],
          db := [demoRec "R1" "9000000001" false] } :=
  ⟨rfl, sync_empty_dirty_is_noop [demoRec "R1" "9000000001" false]
    demoSheetValues allFail rfl⟩

/-- **C1.** The dirty-flag clear (`UPDATE registrations SET needs_sync = false`
for the fetched ids) runs only after every update chunk and append chunk
completed without raising: when every call of the run succeeds the run returns
200 and the table equals `clearDirty` of the fetched ids; when any call of the
run raises, the run returns the 500 error response, the table is unchanged,
and a subsequent `listDirty` returns the full original dirty set. -/
theorem sync_flag_clear_all_or_nothing (db : List DbRecord) (sv : List SheetRow)
    (fails : Nat → Bool) (hne : listDirty db ≠ []) :
    ((∀ k, k ≤ (syncPlan db sv).length → fails k = false) →
        (syncUpsertHandler db sv fails).statusCode = 200 ∧
        (syncUpsertHandler db sv fails).db =
          clearDirty db ((listDirty db).map (fun r => r.registration_id)))
      ∧ ((∃ k, k ≤ (syncPlan db sv).length ∧ fails k = true) →
        (syncUpsertHandler db sv fails).statusCode = 500 ∧
        (syncUpsertHandler db sv fails).db = db ∧
        listDirty (syncUpsertHandler db sv fails).db = listDirty db) := by
  have hlen : (listDirty db).length ≠ 0 := by
    simpa [List.length_eq_zero] using hne
  constructor
  · intro hall
    have h0 : fails 0 = false := hall 0 (Nat.zero_le _)
    have hok : (runCalls fails 1 (syncPlan db sv)).2 = true := by
      rw [runCalls_ok_iff]
      intro i hi
      exact hall (1 + i) (by omega)
    rw [syncUpsertHandler_of_ok db sv fails hlen h0 hok]
    exact ⟨rfl, rfl⟩
  · rintro ⟨k, hk, hfk⟩
    cases h0 : fails 0 with
    | true =>
      rw [syncUpsertHandler_of_read_fail db sv fails hlen h0]
      exact ⟨rfl, rfl, rfl⟩
    | false =>
      have hbad : (runCalls fails 1 (syncPlan db sv)).2 = false := by
        cases hr : (runCalls fails 1 (syncPlan db sv)).2 with
        | false => rfl
        | true =>
          rw [runCalls_ok_iff] at hr
          have hk1 : 1 ≤ k := by
            cases k with
            | zero => rw [hfk] at h0; cases h0
            | succ j => omega
          have hcontra := hr (k - 1) (by omega)
          rw [show 1 + (k - 1) = k from by omega, hfk] at hcontra
          cases hcontra
      rw [syncUpsertHandler_of_chunk_fail db sv fails hlen h0 hbad]
      exact ⟨rfl, rfl, rfl⟩

/-- Witness for `sync_flag_clear_all_or_nothing`: a single dirty record with
every call raising leaves the table (and hence the dirty set) untouched. -/
theorem sync_flag_clear_all_or_nothing_witness :
    listDirty demoDirtyDb ≠ [] ∧
      (syncUpsertHandler demoDirtyDb [] allFail).statusCode = 500 ∧
      (syncUpsertHandler demoDirtyDb [] allFail).db = demoDirtyDb ∧
      listDirty (syncUpsertHandler demoDirtyDb [] allFail).db =
        listDirty demoDirtyDb :=
  ⟨by decide,
   (sync_flag_clear_all_or_nothing demoDirtyDb [] allFail (by decide)).2
     ⟨0, Nat.zero_le _, rfl⟩⟩

/-- **C2.** For every record of the fetched dirty set the Reconciler performs
exactly one of append / update-in-place, decided solely by whether the record's
`registration_id` is a key of the mirror index built from the pre-run bulk
read: the update batch is exactly the records whose id is present (in order)
and the append batch exactly those whose id is absent; a record whose id is
present in the pre-run index is never appended. -/
theorem sync_classify_partition (db : List DbRecord) (sv : List SheetRow) :
    (classify (buildSheetMap sv) (listDirty db)).1 =
        ((listDirty db).filter
          (fun r => ((buildSheetMap sv).lookup r.registration_id).isSome)).map
          (fun r =>
            mkUpdateReq (((buildSheetMap sv).lookup r.registration_id).getD 0) r)
      ∧ (classify (buildSheetMap sv) (listDirty db)).2 =
        ((listDirty db).filter
          (fun r => ((buildSheetMap sv).lookup r.registration_id).isNone)).map
          formatRow
      ∧ ∀ r ∈ listDirty db,
          ((buildSheetMap sv).lookup r.registration_id).isSome = true →
          formatRow r ∉ (classify (buildSheetMap sv) (listDirty db)).2 := by
  refine ⟨classify_fst _ _, classify_snd _ _, ?_⟩
  intro r hr hsome hmem
  rw [classify_snd] at hmem
  simp only [List.mem_map] at hmem
  obtain ⟨r2, hr2, heq⟩ := hmem
  rw [List.mem_filter] at hr2
  have hid : r2.registration_id = r.registration_id := by
    have hhead := congrArg (fun l => l.head?) heq
    simpa [formatRow] using hhead
  rw [hid] at hr2
  rcases hr2 with ⟨-, hnone⟩
  cases hopt : (buildSheetMap sv).lookup r.registration_id with
  | some v => rw [hopt] at hnone; cases hnone
  | none => rw [hopt] at hsome; cases hsome

/-- Witness for `sync_classify_partition`: with the single dirty record's id
present in the sheet read, its row is not in the append batch. -/
theorem sync_classify_partition_witness :
    demoRec "R1" "9000000001" true ∈ listDirty demoDirtyDb ∧
      ((buildSheetMap [["R1"]]).lookup
        (demoRec "R1" "9000000001" true).registration_id).isSome = true ∧
      formatRow (demoRec "R1" "9000000001" true) ∉
        (classify (buildSheetMap [["R1"]]) (listDirty demoDirtyDb)).2 :=
  ⟨by decide, by decide,
   (sync_classify_partition demoDirtyDb [["R1"]]).2.2 _ (by decide) (by decide)⟩

/-- **C3.** Running the Reconciler twice in a row with no intervening Record
Store writes is idempotent: after a successful run (status 200) the second run
reads an empty dirty set, performs zero Mirror Store calls, and leaves the
table unchanged. -/
theorem sync_idempotent_second_run (db : List DbRecord) (sv sv2 : List SheetRow)
    (fails fails2 : Nat → Bool)
    (h : (syncUpsertHandler db sv fails).statusCode = 200) :
    (syncUpsertHandler (syncUpsertHandler db sv fails).db sv2 fails2).mirrorCalls
        = [] ∧
      syncUpsertHandler (syncUpsertHandler db sv fails).db sv2 fails2 =
        { statusCode := 200, updated := 0, appended := 0, mirrorCalls := [],
          db := (syncUpsertHandler db sv fails).db } := by
  have hempty : listDirty (syncUpsertHandler db sv fails).db = [] := by
    by_cases hlen : (listDirty db).length = 0
    · have hnil : listDirty db = [] := List.length_eq_zero.mp hlen
      rw [syncUpsertHandler_of_empty db sv fails hnil]
      exact hnil
    · cases h0 : fails 0 with
      | true =>
        rw [syncUpsertHandler_of_read_fail db sv fails hlen h0] at h
        simp at h
      | false =>
        cases hr : (runCalls fails 1 (syncPlan db sv)).2 with
        | false =>
          rw [syncUpsertHandler_of_chunk_fail db sv fails hlen h0 hr] at h
          simp at h
        | true =>
          rw [syncUpsertHandler_of_ok db sv fails hlen h0 hr]
          apply listDirty_clearDirty
          intro r hrdb hsync
          exact List.mem_map_of_mem _ (mem_listDirty.mpr ⟨hrdb, hsync⟩)
  rw [syncUpsertHandler_of_empty _ sv2 fails2 hempty]
  exact ⟨rfl, rfl⟩

/-- Witness for `sync_idempotent_second_run`: after a fully successful run on a
single dirty record, the immediate re-run makes no mirror call at all. -/
theorem sync_idempotent_second_run_witness :
    (syncUpsertHandler demoDirtyDb [] noFail).statusCode = 200 ∧
      ((syncUpsertHandler (syncUpsertHandler demoDirtyDb [] noFail).db
          demoSheetValues allFail).mirrorCalls = [] ∧
        syncUpsertHandler (syncUpsertHandler demoDirtyDb [] noFail).db
            demoSheetValues allFail =
          { statusCode := 200, updated := 0, appended := 0, mirrorCalls := [],
            db := (syncUpsertHandler demoDirtyDb [] noFail).db }) :=
  ⟨rfl, sync_idempotent_second_run demoDirtyDb [] demoSheetValues noFail allFail rfl⟩

theorem chunksOf_sizes_1001 {α : Type} (l : List α) (h : l.length = 1001) :
    (chunksOf API_CHUNK_SIZE l).map (fun c => c.length) = [500, 500, 1] := by
  have h0 : l ≠ [] := by
    intro e
    rw [e] at h
    simp at h
  have e1 : API_CHUNK_SIZE = 500 := rfl
  rw [e1, chunksOf_cons_eq l h0]
  have hd1 : (l.drop 500).length = 501 := by simp [h]
  have h1ne : l.drop 500 ≠ [] := by
    intro e
    rw [e] at hd1
    simp at hd1
  rw [chunksOf_cons_eq _ h1ne]
  have hd2 : ((l.drop 500).drop 500).length = 1 := by simp [h]
  have h2ne : (l.drop 500).drop 500 ≠ [] := by
    intro e
    rw [e] at hd2
    simp at hd2
  rw [chunksOf_cons_eq _ h2ne]
  have hd3 : ((l.drop 500).drop 500).drop 500 = [] := by
    rw [← List.length_eq_zero]
    simp [h]
  rw [hd3]
  have hnil : chunksOf 500 ([] : List α) = [] := by simp [chunksOf]
  rw [hnil]
  simp only [List.map_cons, List.map_nil, List.length_take, hd1, hd2, h]
  norm_num

/-- **C8.** For a dirty set of 1001 records all absent from the mirror index
and chunk size 500, a fully successful run issues exactly the sheet-index read
followed by 3 append calls whose chunk sizes are 500, 500 and 1 in that order
(and no update call), reports 1001 appends, and the dirty-flag clear covers all
fetched ids so `listDirty` afterwards returns empty. -/
theorem sync_chunk_boundary_1001 (db : List DbRecord) (sv : List SheetRow)
    (h1 : (listDirty db).length = 1001)
    (h2 : ∀ r ∈ listDirty db,
      (buildSheetMap sv).lookup r.registration_id = none) :
    (syncUpsertHandler db sv noFail).mirrorCalls =
        MirrorCall.readIds ::
          (chunksOf API_CHUNK_SIZE ((listDirty db).map formatRow)).map
            MirrorCall.appendChunk ∧
      (chunksOf API_CHUNK_SIZE ((listDirty db).map formatRow)).map
          (fun c => c.length) = [500, 500, 1] ∧
      (syncUpsertHandler db sv noFail).updated = 0 ∧
      (syncUpsertHandler db sv noFail).appended = 1001 ∧
      listDirty (syncUpsertHandler db sv noFail).db = [] := by
  have hfil_none : (listDirty db).filter
      (fun r => ((buildSheetMap sv).lookup r.registration_id).isNone) =
      listDirty db := by
    rw [List.filter_eq_self]
    intro a ha
    simp [h2 a ha]
  have hfil_some : (listDirty db).filter
      (fun r => ((buildSheetMap sv).lookup r.registration_id).isSome) = [] := by
    rw [List.filter_eq_nil_iff]
    intro a ha
    simp [h2 a ha]
  have hcls1 : (classify (buildSheetMap sv) (listDirty db)).1 = [] := by
    rw [classify_fst, hfil_some]
    rfl
  have hcls2 : (classify (buildSheetMap sv) (listDirty db)).2 =
      (listDirty db).map formatRow := by
    rw [classify_snd, hfil_none]
  have hplan : syncPlan db sv =
      (chunksOf API_CHUNK_SIZE ((listDirty db).map formatRow)).map
        MirrorCall.appendChunk := by
    rw [syncPlan, writePlan, hcls1, hcls2]
    rfl
  have hlen : (listDirty db).length ≠ 0 := by omega
  have hok : (runCalls noFail 1 (syncPlan db sv)).2 = true := by
    rw [runCalls_ok_iff]
    intro i _
    rfl
  rw [syncUpsertHandler_of_ok db sv noFail hlen rfl hok]
  refine ⟨by rw [hplan], chunksOf_sizes_1001 _ (by simp [h1]), by simp [hcls1],
    by rw [hcls2]; simp [h1], ?_⟩
  apply listDirty_clearDirty
  intro r hrdb hsync
  exact List.mem_map_of_mem _ (mem_listDirty.mpr ⟨hrdb, hsync⟩)

theorem db1001_dirty_length : (listDirty db1001).length = 1001 := by
  rw [listDirty, length_sortByTs]
  have hf : db1001.filter (fun r => r.needs_sync) = db1001 := by
    rw [List.filter_eq_self]
    intro a ha
    rw [db1001] at ha
    simp only [List.mem_map] at ha
    obtain ⟨i, _, rfl⟩ := ha
    rfl
  rw [hf, db1001]
  simp

/-- Witness for `sync_chunk_boundary_1001` on a concrete table of 1001 dirty
records and an empty sheet. -/
theorem sync_chunk_boundary_1001_witness :
    (listDirty db1001).length = 1001 ∧
      (∀ r ∈ listDirty db1001,
        (buildSheetMap []).lookup r.registration_id = none) ∧
      ((syncUpsertHandler db1001 [] noFail).updated = 0 ∧
        (syncUpsertHandler db1001 [] noFail).appended = 1001 ∧
        listDirty (syncUpsertHandler db1001 [] noFail).db = []) :=
  ⟨db1001_dirty_length, fun _ _ => rfl,
   (sync_chunk_boundary_1001 db1001 [] db1001_dirty_length
      (fun _ _ => rfl)).2.2⟩

/-! ## Claim theorems: retryWithBackoff -/

theorem retryLoop_ok {ε α : Type} (outcomes : Nat → Except ε α) (retries : Int)
    (d0 : Nat) (a : α) (j : Nat) (hjr : (j : Int) < retries)
    (hj : outcomes j = Except.ok a) :
    ∀ i, i ≤ j → (∀ k, i ≤ k → k < j → ∀ b, outcomes k ≠ Except.ok b) →
      retryLoop outcomes retries d0 i =
        (RetryResult.ok a, (List.range' i (j - i)).map (fun k => d0 * 2 ^ k),
         j + 1) := by
  suffices H : ∀ n, ∀ i, j - i = n → i ≤ j →
      (∀ k, i ≤ k → k < j → ∀ b, outcomes k ≠ Except.ok b) →
      retryLoop outcomes retries d0 i =
        (RetryResult.ok a, (List.range' i (j - i)).map (fun k => d0 * 2 ^ k),
         j + 1) by
    intro i h1 h2
    exact H (j - i) i rfl h1 h2
  intro n
  induction n with
  | zero =>
    intro i hn hij _
    have hieq : i = j := by omega
    subst hieq
    rw [retryLoop, dif_pos hjr, hj]
    simp
  | succ n ih =>
    intro i hn hij hprev
    have hlt : i < j := by omega
    have hir : (i : Int) < retries := by omega
    obtain ⟨e, he⟩ : ∃ e, outcomes i = Except.error e := by
      cases ho : outcomes i with
      | ok b => exact absurd ho (hprev i le_rfl hlt b)
      | error e => exact ⟨e, rfl⟩
    have hine : ¬((i : Int) = retries - 1) := by omega
    rw [retryLoop, dif_pos hir]
    simp only [he]
    rw [if_neg hine,
      ih (i + 1) (by omega) (by omega)
        (fun k hk1 hk2 => hprev k (by omega) hk2)]
    have hrange : List.range' i (j - i) = i :: List.range' (i + 1) (j - (i + 1)) := by
      have hsucc : j - i = (j - (i + 1)) + 1 := by omega
      rw [hsucc, List.range'_succ]
    rw [hrange]
    simp

theorem retryLoop_err {ε α : Type} (outcomes : Nat → Except ε α) (retries : Int)
    (d0 : Nat) (e : ε) (hr1 : 1 ≤ retries)
    (hlast : outcomes ((retries - 1).toNat) = Except.error e)
    (hall : ∀ k : Nat, (k : Int) < retries → ∀ b, outcomes k ≠ Except.ok b) :
    ∀ i : Nat, (i : Int) < retries →
      retryLoop outcomes retries d0 i =
        (RetryResult.err e,
         (List.range' i ((retries - 1).toNat - i)).map (fun k => d0 * 2 ^ k),
         (retries - 1).toNat + 1) := by
  suffices H : ∀ n, ∀ i : Nat, (retries - 1).toNat - i = n → (i : Int) < retries →
      retryLoop outcomes retries d0 i =
        (RetryResult.err e,
         (List.range' i ((retries - 1).toNat - i)).map (fun k => d0 * 2 ^ k),
         (retries - 1).toNat + 1) by
    intro i hir
    exact H ((retries - 1).toNat - i) i rfl hir
  intro n
  induction n with
  | zero =>
    intro i hn hir
    have hieq : i = (retries - 1).toNat := by omega
    subst hieq
    rw [retryLoop, dif_pos hir]
    simp only [hlast]
    rw [if_pos (by omega)]
    simp
  | succ n ih =>
    intro i hn hir
    have hlt : i < (retries - 1).toNat := by omega
    obtain ⟨e2, he2⟩ : ∃ e2, outcomes i = Except.error e2 := by
      cases ho : outcomes i with
      | ok b => exact absurd ho (hall i hir b)
      | error e2 => exact ⟨e2, rfl⟩
    have hine : ¬((i : Int) = retries - 1) := by omega
    rw [retryLoop, dif_pos hir]
    simp only [he2]
    rw [if_neg hine, ih (i + 1) (by omega) (by omega)]
    have hrange : List.range' i ((retries - 1).toNat - i) =
        i :: List.range' (i + 1) ((retries - 1).toNat - (i + 1)) := by
      have hsucc : (retries - 1).toNat - i = ((retries - 1).toNat - (i + 1)) + 1 := by
        omega
      rw [hsucc, List.range'_succ]
    rw [hrange]
    simp

/-- **C7.** For `retryWithBackoff` with retry budget `n ≥ 1` and base delay
`d0`: the wrapped call is attempted up to `n` times with the sleep before
attempt `i + 1` equal to `d0 * 2 ^ i`; the first successful attempt's result is
returned (after exactly the preceding attempts' sleeps); and when every
in-budget attempt fails, the error of the last attempt (number `n`) is rethrown
unmodified after exactly `n` invocations. -/
theorem retry_budget_spec {ε α : Type} (outcomes : Nat → Except ε α)
    (retries : Int) (d0 : Nat) (hr : 1 ≤ retries) :
    (∀ (j : Nat) (a : α), (j : Int) < retries → outcomes j = Except.ok a →
        (∀ k, k < j → ∀ b, outcomes k ≠ Except.ok b) →
        retryWithBackoff outcomes retries d0 =
          (RetryResult.ok a, (List.range j).map (fun k => d0 * 2 ^ k), j + 1))
      ∧ (∀ e : ε, outcomes ((retries - 1).toNat) = Except.error e →
        (∀ k : Nat, (k : Int) < retries → ∀ b, outcomes k ≠ Except.ok b) →
        retryWithBackoff outcomes retries d0 =
          (RetryResult.err e,
           (List.range ((retries - 1).toNat)).map (fun k => d0 * 2 ^ k),
           (retries - 1).toNat + 1))
      ∧ ((((retries - 1).toNat : Int) + 1 = retries)) := by
  refine ⟨?_, ?_, by omega⟩
  · intro j a hjr hj hprev
    rw [retryWithBackoff,
      retryLoop_ok outcomes retries d0 a j hjr hj 0 (Nat.zero_le _)
        (fun k _ hk b => hprev k hk b)]
    rw [List.range_eq_range']
    simp
  · intro e hlast hall
    rw [retryWithBackoff,
      retryLoop_err outcomes retries d0 e hr hlast hall 0 (by omega)]
    rw [List.range_eq_range']
    simp

/-- Witness for `retry_budget_spec`: three failing attempts under budget 3
rethrow the last error after sleeps of 500 and 1000 milliseconds. -/
theorem retry_budget_spec_witness :
    (1 : Int) ≤ 3 ∧
      alwaysBoom ((3 - 1 : Int).toNat) = Except.error "boom" ∧
      retryWithBackoff alwaysBoom 3 500 =
        (RetryResult.err "boom",
         (List.range ((3 - 1 : Int).toNat)).map (fun k => 500 * 2 ^ k),
         (3 - 1 : Int).toNat + 1) :=
  ⟨by decide, rfl,
   (retry_budget_spec alwaysBoom 3 500 (by decide)).2.1 "boom" rfl
     (fun _ _ b h => Except.noConfusion h)⟩

/-- **C10.** For every call `retryWithBackoff(fn, retries)` with `retries ≤ 0`,
the function resolves successfully to `undefined` without ever invoking `fn`
and without raising: the loop body is never entered, so a zero or negative
budget silently swallows the call. -/
theorem retry_nonpositive_budget {ε α : Type} (outcomes : Nat → Except ε α)
    (retries : Int) (d0 : Nat) (h : retries ≤ 0) :
    retryWithBackoff outcomes retries d0 = (RetryResult.undef, [], 0) := by
  rw [retryWithBackoff, retryLoop, dif_neg (by omega)]

/-- Witness for `retry_nonpositive_budget` at budget `-1`. -/
theorem retry_nonpositive_budget_witness :
    (-1 : Int) ≤ 0 ∧
      retryWithBackoff alwaysBoom (-1) 500 = (RetryResult.undef, [], 0) :=
  ⟨by decide, retry_nonpositive_budget alwaysBoom (-1) 500 (by decide)⟩

/-! ## Claim theorems: deletion planning of sync-with-google-sheets.js -/

theorem lookup_none_forall {κ ν : Type} [BEq κ] [LawfulBEq κ] {k : κ}
    (m : List (κ × ν)) :
    m.lookup k = none → ∀ p ∈ m, p.1 ≠ k := by
  induction m with
  | nil => simp
  | cons q m ih =>
    obtain ⟨qk, qv⟩ := q
    intro h p hp
    by_cases hk : k = qk
    · subst hk
      simp [List.lookup] at h
    · have hbeq : (k == qk) = false := beq_eq_false_iff_ne.mpr hk
      simp only [List.lookup, hbeq] at h
      rcases List.mem_cons.mp hp with hpq | hpm
      · subst hpq
        exact fun e => hk e.symm
      · exact ih h p hpm

theorem replace_id_of_absent {κ ν : Type} [BEq κ] [LawfulBEq κ] {k : κ} {v : ν}
    (m : List (κ × ν)) (h : ∀ p ∈ m, p.1 ≠ k) :
    m.map (fun p => if p.1 == k then (k, v) else p) = m := by
  induction m with
  | nil => rfl
  | cons q m ih =>
    have hq : (q.1 == k) = false :=
      beq_eq_false_iff_ne.mpr (h q (List.mem_cons_self q m))
    rw [List.map_cons, if_neg (by simp [hq]),
      ih (fun p hp => h p (List.mem_cons_of_mem q hp))]

theorem replace_keys_eq {κ ν : Type} [BEq κ] [LawfulBEq κ] (k : κ) (v : ν)
    (m : List (κ × ν)) :
    (m.map (fun p => if p.1 == k then (k, v) else p)).map Prod.fst =
      m.map Prod.fst := by
  rw [List.map_map]
  apply List.map_congr_left
  intro p _
  simp only [Function.comp_apply]
  by_cases hpk : (p.1 == k) = true
  · rw [if_pos hpk]
    exact (by simpa using hpk : p.1 = k).symm
  · rw [if_neg hpk]

theorem replace_rowIndexes {κ : Type} [BEq κ] [LawfulBEq κ] (k : κ)
    (v : SheetEntry) (bound : Nat) (hv : bound ≤ v.rowIndex)
    (m : List (κ × SheetEntry)) :
    (m.map Prod.fst).Nodup → (∀ p ∈ m, p.2.rowIndex < bound) →
    (m.map (fun p => p.2.rowIndex)).Nodup →
    ((m.map (fun p => if p.1 == k then (k, v) else p)).map
      (fun p => p.2.rowIndex)).Nodup := by
  induction m with
  | nil => intro _ _ _; simp
  | cons q m ih =>
    intro h1 h2 h3
    rw [List.map_cons, List.nodup_cons] at h1 h3
    obtain ⟨h1a, h1b⟩ := h1
    obtain ⟨h3a, h3b⟩ := h3
    rw [List.map_cons, List.map_cons, List.nodup_cons]
    by_cases hqk : (q.1 == k) = true
    · rw [if_pos hqk]
      have hqe : q.1 = k := by simpa using hqk
      have hmid : m.map (fun p => if p.1 == k then (k, v) else p) = m := by
        apply replace_id_of_absent
        intro p hp hpk
        exact h1a (by
          rw [hqe, ← hpk]
          exact List.mem_map_of_mem Prod.fst hp)
      rw [hmid]
      constructor
      · intro hmem
        simp only [List.mem_map] at hmem
        obtain ⟨p, hp, hval⟩ := hmem
        have hval2 : p.2.rowIndex = v.rowIndex := hval
        have hb := h2 p (List.mem_cons_of_mem q hp)
        omega
      · exact h3b
    · rw [if_neg hqk]
      constructor
      · intro hmem
        rw [List.map_map] at hmem
        simp only [List.mem_map, Function.comp_apply] at hmem
        obtain ⟨p, hp, hval⟩ := hmem
        by_cases hpk : (p.1 == k) = true
        · rw [if_pos hpk] at hval
          have hval2 : v.rowIndex = q.2.rowIndex := hval
          have hbq := h2 q (List.mem_cons_self q m)
          omega
        · rw [if_neg hpk] at hval
          exact h3a (hval ▸ List.mem_map_of_mem (fun p => p.2.rowIndex) hp)
      · exact ih h1b (fun p hp => h2 p (List.mem_cons_of_mem q hp)) h3b

theorem jsMapSet_entry_inv (k : Option String) (v : SheetEntry) (idx : Nat)
    (hv : v.rowIndex = idx + 2) (m : List (Option String × SheetEntry)) :
    (m.map Prod.fst).Nodup →
    (∀ p ∈ m, 2 ≤ p.2.rowIndex ∧ p.2.rowIndex < idx + 2) →
    (m.map (fun p => p.2.rowIndex)).Nodup →
    ((jsMapSet m k v).map Prod.fst).Nodup ∧
      (∀ p ∈ jsMapSet m k v, 2 ≤ p.2.rowIndex ∧ p.2.rowIndex < (idx + 1) + 2) ∧
      ((jsMapSet m k v).map (fun p => p.2.rowIndex)).Nodup := by
  intro h1 h2 h3
  rw [jsMapSet]
  by_cases hl : (m.lookup k).isSome
  · rw [if_pos hl]
    refine ⟨?_, ?_, ?_⟩
    · rw [replace_keys_eq]
      exact h1
    · intro p hp
      simp only [List.mem_map] at hp
      obtain ⟨q, hq, hmap⟩ := hp
      by_cases hqk : (q.1 == k) = true
      · rw [if_pos hqk] at hmap
        have : p.2.rowIndex = v.rowIndex := by rw [← hmap]
        omega
      · rw [if_neg hqk] at hmap
        have := h2 q hq
        rw [hmap] at this
        omega
    · exact replace_rowIndexes k v (idx + 2) (by omega) m h1
        (fun p hp => (h2 p hp).2) h3
  · rw [if_neg hl]
    have hnone : m.lookup k = none := Option.not_isSome_iff_eq_none.mp hl
    have hknot : ∀ p ∈ m, p.1 ≠ k := lookup_none_forall m hnone
    refine ⟨?_, ?_, ?_⟩
    · rw [List.map_append, List.nodup_append]
      refine ⟨h1, List.nodup_singleton k, ?_⟩
      intro x hx hx2
      simp only [List.map_cons, List.map_nil, List.mem_singleton] at hx2
      subst hx2
      simp only [List.mem_map] at hx
      obtain ⟨p, hp, hpk⟩ := hx
      exact hknot p hp hpk
    · intro p hp
      rcases List.mem_append.mp hp with hpm | hpv
      · have := h2 p hpm
        omega
      · simp only [List.mem_singleton] at hpv
        subst hpv
        simp only []
        omega
    · rw [List.map_append, List.nodup_append]
      refine ⟨h3, by simp, ?_⟩
      intro x hx hx2
      simp only [List.map_cons, List.map_nil, List.mem_singleton] at hx2
      subst hx2
      simp only [List.mem_map] at hx
      obtain ⟨p, hp, hpk⟩ := hx
      have := h2 p hp
      omega

theorem buildDelMap_inv (rows : List SheetRow) :
    ∀ (idx : Nat) (m : List (Option String × SheetEntry)),
      (m.map Prod.fst).Nodup →
      (∀ p ∈ m, 2 ≤ p.2.rowIndex ∧ p.2.rowIndex < idx + 2) →
      (m.map (fun p => p.2.rowIndex)).Nodup →
      (∀ p ∈ buildDelMap idx rows m, 2 ≤ p.2.rowIndex) ∧
        ((buildDelMap idx rows m).map (fun p => p.2.rowIndex)).Nodup := by
  induction rows with
  | nil =>
    intro idx m h1 h2 h3
    exact ⟨fun p hp => (h2 p hp).1, h3⟩
  | cons row rest ih =>
    intro idx m h1 h2 h3
    rw [buildDelMap]
    obtain ⟨g1, g2, g3⟩ :=
      jsMapSet_entry_inv (row.get? 3) { regId := row.get? 0, rowIndex := idx + 2 }
        idx rfl m h1 h2 h3
    exact ih (idx + 1) _ g1 g2 g3

theorem delCandidates_inv (dbRows : List DbRecord) (values : List SheetRow) :
    (∀ e ∈ delCandidates dbRows values, 2 ≤ e.rowIndex) ∧
      ((delCandidates dbRows values).map (fun e => e.rowIndex)).Nodup := by
  obtain ⟨hb, hnd⟩ := buildDelMap_inv values.tail 0 [] (by simp) (by simp) (by simp)
  constructor
  · intro e he
    rw [delCandidates] at he
    simp only [List.mem_map] at he
    obtain ⟨p, hp, hpe⟩ := he
    rw [← hpe]
    exact hb p (List.mem_of_mem_filter hp)
  · simp only [delCandidates, List.map_map]
    exact List.Nodup.sublist
      (List.Sublist.map (fun p => p.2.rowIndex)
        (List.filter_sublist (buildDelMap 0 values.tail [])))
      hnd

theorem get?_eraseIdx_of_lt {α : Type} (l : List α) (i j : Nat) (h : j < i) :
    (l.eraseIdx i).get? j = l.get? j := by
  induction l generalizing i j with
  | nil => simp [List.eraseIdx]
  | cons x xs ih =>
    cases i with
    | zero => omega
    | succ i2 =>
      rw [List.eraseIdx]
      cases j with
      | zero => rfl
      | succ j2 =>
        rw [List.get?_cons_succ, List.get?_cons_succ]
        exact ih i2 j2 (by omega)

/-- **C9.** In the sync variant that deletes mirror rows absent from the Record
Store, the deletion list is sorted by strictly descending row position before
being applied: pairwise, every earlier entry has a strictly larger `rowIndex`,
and therefore applying an earlier deletion (`eraseIdx` at its 0-based position)
never shifts the position targeted by a later deletion of the same batch. -/
theorem rowsToDelete_descending (dbRows : List DbRecord)
    (values : List SheetRow) :
    (rowsToDelete dbRows values).Pairwise
        (fun a b => b.rowIndex < a.rowIndex) ∧
      ∀ (sheet : List SheetRow) (a b : SheetEntry),
        a ∈ rowsToDelete dbRows values → b ∈ rowsToDelete dbRows values →
        b.rowIndex < a.rowIndex →
        (sheet.eraseIdx (a.rowIndex - 1)).get? (b.rowIndex - 1) =
          sheet.get? (b.rowIndex - 1) := by
  obtain ⟨hbound, hnodup⟩ := delCandidates_inv dbRows values
  have hperm : List.Perm (rowsToDelete dbRows values)
      (delCandidates dbRows values) :=
    List.perm_insertionSort delRel (delCandidates dbRows values)
  constructor
  · have hsorted : (rowsToDelete dbRows values).Pairwise delRel :=
      List.sorted_insertionSort delRel (delCandidates dbRows values)
    have hnodup2 : ((rowsToDelete dbRows values).map
        (fun e => e.rowIndex)).Nodup :=
      ((hperm.map (fun e => e.rowIndex)).nodup_iff).mpr hnodup
    have hne : (rowsToDelete dbRows values).Pairwise
        (fun a b => a.rowIndex ≠ b.rowIndex) := by
      rw [List.Nodup, List.pairwise_map] at hnodup2
      exact hnodup2
    exact (hsorted.and hne).imp
      (fun hab => Nat.lt_of_le_of_ne hab.1 (fun e => hab.2 e.symm))
  · intro sheet a b ha hb hlt
    have h2b : 2 ≤ b.rowIndex := hbound b (hperm.mem_iff.mp hb)
    apply get?_eraseIdx_of_lt
    omega

/-- Witness for `rowsToDelete_descending`: two stale mirror rows are queued
with strictly descending row positions, and deleting the higher row leaves the
lower row's position intact. -/
theorem rowsToDelete_descending_witness :
    (rowsToDelete [] demoSheetValues).Pairwise
        (fun a b => b.rowIndex < a.rowIndex) ∧
      ({ regId := some "R2", rowIndex := 3 } : SheetEntry) ∈
        rowsToDelete [] demoSheetValues ∧
      ({ regId := some "R1", rowIndex := 2 } : SheetEntry) ∈
        rowsToDelete [] demoSheetValues ∧
      ((([["a"], ["b"], ["c"]] : List SheetRow).eraseIdx
          (({ regId := some "R2", rowIndex := 3 } : SheetEntry).rowIndex - 1)).get?
        (({ regId := some "R1", rowIndex := 2 } : SheetEntry).rowIndex - 1) =
        ([["a"], ["b"], ["c"]] : List SheetRow).get?
          (({ regId := some "R1", rowIndex := 2 } : SheetEntry).rowIndex - 1)) :=
  ⟨(rowsToDelete_descending [] demoSheetValues).1, by decide, by decide,
   (rowsToDelete_descending [] demoSheetValues).2 [["a"], ["b"], ["c"]]
     { regId := some "R2", rowIndex := 3 } { regId := some "R1", rowIndex := 2 }
     (by decide) (by decide) (by decide)⟩

/-! ## Claim theorems: duplicate-phone conflict and the dirty flag -/

/-- Counterexample for claim C4 as stated: in the cited Postgres
`submit-registration.js` handler, a submission whose phone number already
exists gets a 409 whose body is only the fixed error message — it carries none
of the existing record's public fields (`registrationId` in particular is
absent), contradicting "the response body carries the existing record's public
fields". -/
theorem submit_duplicate_conflict_cex :
    (submitRegistrationPg cexHmac demoDirtyDb cexSubmission 1
        "TDEXPOUP-0002").1.statusCode = 409 ∧
      (submitRegistrationPg cexHmac demoDirtyDb cexSubmission 1
          "TDEXPOUP-0002").1.body =
        JsonVal.obj
          [("error", JsonVal.str "This phone number is already registered.")] ∧
      jsonField (submitRegistrationPg cexHmac demoDirtyDb cexSubmission 1
          "TDEXPOUP-0002").1.body "registrationId" = none ∧
      (submitRegistrationPg cexHmac demoDirtyDb cexSubmission 1
          "TDEXPOUP-0002").2 = demoDirtyDb :=
  ⟨rfl, rfl, rfl, rfl⟩

/-- **C4 (amended).** A submission whose phone already exists yields conflict
status 409 and no second record in either cited variant; the Firestore
variant's body carries the full existing document under `details`, while the
Postgres variant's body carries only the fixed error message. -/
theorem submit_duplicate_conflict (hmac : String → String) (db : List DbRecord)
    (sub : Submission) (ts : Nat) (rid : String)
    (hsig : hmac (sub.razorpay_order_id ++ "|" ++ sub.razorpay_payment_id) =
      sub.razorpay_signature)
    (hfields : (requiredFieldsPg sub).find? (fun p => p.2.jsTrim = "") = none)
    (himg : sub.hasProfileImage = true)
    (hdup : db.any (fun r => r.phone = sub.phone.jsTrim) = true) :
    ((submitRegistrationPg hmac db sub ts rid).1.statusCode = 409 ∧
      (submitRegistrationPg hmac db sub ts rid).1.body =
        JsonVal.obj
          [("error", JsonVal.str "This phone number is already registered.")] ∧
      (submitRegistrationPg hmac db sub ts rid).2 = db)
    ∧ ∀ (fdb : List FsDoc) (fsub : FsSubmission) (c t : Nat) (d : FsDoc),
        ¬(fsub.name = "" ∨ fsub.phone = "" ∨ fsub.firmName = "" ∨
          fsub.hasProfileImage = false ∨ fsub.hasPaymentScreenshot = false) →
        fdb.find? (fun x => x.phone = fsub.phone) = some d →
        (submitRegistrationFs fdb fsub c t).1.statusCode = 409 ∧
        jsonField (submitRegistrationFs fdb fsub c t).1.body "details" =
          some (fsDocJson d) ∧
        (submitRegistrationFs fdb fsub c t).2 = fdb := by
  constructor
  · rw [submitRegistrationPg, if_neg (by simp [hsig])]
    simp only [hfields]
    rw [if_neg (by simp [himg]), if_pos hdup]
    exact ⟨rfl, rfl, rfl⟩
  · intro fdb fsub c t d hval hfind
    rw [submitRegistrationFs, if_neg hval]
    refine ⟨by simp [hfind], ?_, by simp [hfind]⟩
    simp only [hfind, jsonField]
    rfl

/-- Witness for `submit_duplicate_conflict` on concrete duplicate submissions
against both store variants. -/
theorem submit_duplicate_conflict_witness :
    cexHmac (cexSubmission.razorpay_order_id ++ "|" ++
        cexSubmission.razorpay_payment_id) = cexSubmission.razorpay_signature ∧
      (requiredFieldsPg cexSubmission).find? (fun p => p.2.jsTrim = "") = none ∧
      cexSubmission.hasProfileImage = true ∧
      demoDirtyDb.any (fun r => r.phone = cexSubmission.phone.jsTrim) = true ∧
      [fsDemoDoc].find? (fun x => x.phone = fsDemoSub.phone) = some fsDemoDoc ∧
      ((submitRegistrationFs [fsDemoDoc] fsDemoSub 1 2).1.statusCode = 409 ∧
        jsonField (submitRegistrationFs [fsDemoDoc] fsDemoSub 1 2).1.body
          "details" = some (fsDocJson fsDemoDoc) ∧
        (submitRegistrationFs [fsDemoDoc] fsDemoSub 1 2).2 = [fsDemoDoc]) :=
  ⟨rfl, rfl, rfl, rfl, rfl,
   (submit_duplicate_conflict cexHmac demoDirtyDb cexSubmission 1 "TDEXPOUP-0002"
      rfl rfl rfl rfl).2 [fsDemoDoc] fsDemoSub 1 2 fsDemoDoc (by decide) rfl⟩

/-- **C5.** Both cited mutations leave the record dirty: a successful create in
the Postgres submit handler appends exactly one record whose `needs_sync` is
`true` (via the spec-modelled column default), and a successful undo-check-in
leaves every matched record with `needs_sync = true` and `checked_in_at = NULL`
in the same update, touching no other record. -/
theorem needs_sync_on_create_and_undo :
    (∀ (hmac : String → String) (db : List DbRecord) (sub : Submission)
        (ts : Nat) (rid : String),
        (submitRegistrationPg hmac db sub ts rid).1.statusCode = 200 →
        ∃ rec, (submitRegistrationPg hmac db sub ts rid).2 = db ++ [rec] ∧
          rec.needs_sync = true)
    ∧ ∀ (secretKey : String) (providedKey : Option String)
        (password registrationId : String) (db : List DbRecord),
        (unmarkCheckedIn secretKey providedKey password registrationId
          db).1.statusCode = 200 →
        (unmarkCheckedIn secretKey providedKey password registrationId db).2 =
            undoUpdate registrationId db ∧
          (∃ r ∈ undoUpdate registrationId db,
            r.registration_id = registrationId) ∧
          ∀ r ∈ undoUpdate registrationId db,
            (r.registration_id = registrationId →
              r.needs_sync = true ∧ r.checked_in_at = none) ∧
            (r.registration_id ≠ registrationId → r ∈ db) := by
  constructor
  · intro hmac db sub ts rid h
    rw [submitRegistrationPg] at h ⊢
    by_cases h1 : hmac (sub.razorpay_order_id ++ "|" ++
        sub.razorpay_payment_id) ≠ sub.razorpay_signature
    · rw [if_pos h1] at h
      simp at h
    · rw [if_neg h1] at h ⊢
      cases h2 : (requiredFieldsPg sub).find? (fun p => p.2.jsTrim = "") with
      | some p =>
        simp only [h2] at h
        simp at h
      | none =>
        simp only [h2] at h ⊢
        by_cases h3 : sub.hasProfileImage = false
        · rw [if_pos h3] at h
          simp at h
        · rw [if_neg h3] at h ⊢
          by_cases h4 : db.any (fun r => r.phone = sub.phone.jsTrim) = true
          · rw [if_pos h4] at h
            simp at h
          · rw [if_neg h4]
            exact ⟨_, rfl, rfl⟩
  · intro sk pk pw rid db h
    rw [unmarkCheckedIn] at h
    by_cases h1 : pk ≠ some sk ∨ pk = some ""
    · rw [if_pos h1] at h
      simp at h
    · rw [if_neg h1] at h
      by_cases h2 : pw ≠ sk
      · rw [if_pos h2] at h
        simp at h
      · rw [if_neg h2] at h
        by_cases h3 : rid = ""
        · rw [if_pos h3] at h
          simp at h
        · rw [if_neg h3] at h
          have hdb2 : (unmarkCheckedIn sk pk pw rid db).2 = undoUpdate rid db := by
            rw [unmarkCheckedIn, if_neg h1, if_neg h2, if_neg h3]
            cases hh : ((undoUpdate rid db).filter
                (fun r => r.registration_id = rid)).head? with
            | none => simp only [hh]
            | some r0 => simp only [hh]
          refine ⟨hdb2, ?_, ?_⟩
          · cases hh : ((undoUpdate rid db).filter
                (fun r => r.registration_id = rid)).head? with
            | none =>
              simp only [hh] at h
              simp at h
            | some r0 =>
              cases hfil : (undoUpdate rid db).filter
                  (fun r => r.registration_id = rid) with
              | nil =>
                rw [hfil] at hh
                cases hh
              | cons a l =>
                rw [hfil] at hh
                have ha : a ∈ (undoUpdate rid db).filter
                    (fun r => r.registration_id = rid) := by
                  rw [hfil]
                  exact List.mem_cons_self a l
                rw [List.mem_filter] at ha
                exact ⟨a, ha.1, by simpa using ha.2⟩
          · intro r hr
            rw [undoUpdate] at hr
            simp only [List.mem_map] at hr
            obtain ⟨r1, hr1, hmap⟩ := hr
            by_cases hid : r1.registration_id = rid
            · rw [if_pos hid] at hmap
              constructor
              · intro _
                rw [← hmap]
                exact ⟨rfl, rfl⟩
              · intro hne
                exact absurd (by rw [← hmap]; exact hid) hne
            · rw [if_neg hid] at hmap
              constructor
              · intro he
                rw [← hmap] at he
                exact absurd he hid
              · intro _
                rw [← hmap]
                exact hr1

/-- Witness for `needs_sync_on_create_and_undo`: a successful create on an
empty table and a successful undo-check-in on the single-record table. -/
theorem needs_sync_on_create_and_undo_witness :
    ((submitRegistrationPg cexHmac [] cexSubmission 1
        "TDEXPOUP-0002").1.statusCode = 200 ∧
      (∃ rec, (submitRegistrationPg cexHmac [] cexSubmission 1
          "TDEXPOUP-0002").2 = [] ++ [rec] ∧ rec.needs_sync = true))
    ∧ ((unmarkCheckedIn "sk" (some "sk") "sk" "R1"
          demoDirtyDb).1.statusCode = 200 ∧
        ((unmarkCheckedIn "sk" (some "sk") "sk" "R1" demoDirtyDb).2 =
            undoUpdate "R1" demoDirtyDb ∧
          (∃ r ∈ undoUpdate "R1" demoDirtyDb, r.registration_id = "R1") ∧
          ∀ r ∈ undoUpdate "R1" demoDirtyDb,
            (r.registration_id = "R1" →
              r.needs_sync = true ∧ r.checked_in_at = none) ∧
            (r.registration_id ≠ "R1" → r ∈ demoDirtyDb))) :=
  ⟨⟨rfl, needs_sync_on_create_and_undo.1 cexHmac [] cexSubmission 1
      "TDEXPOUP-0002" rfl⟩,
   ⟨rfl, needs_sync_on_create_and_undo.2 "sk" (some "sk") "sk" "R1"
      demoDirtyDb rfl⟩⟩
